import Mathlib

/-!
Shallow embedding of the resilient job-orchestration core of a TypeScript
OCR client SDK, together with proofs checking the natural-language
specification against it.

Embedded source files:
* `utils/retry.ts`   — `isRetriableError`, `getRetryDelay`, `withRetry`
* `utils/polling.ts` — `pollUntil`
* `services/ocr.ts`  — `OCRService.uploadParts`, `OCRService.uploadFileBuffer`

Modelling conventions:
* JavaScript numbers are modelled as `ℚ` (durations, multipliers) or
  `ℤ`/`ℕ` where the code only ever holds integers; `Math.floor` is `Int.floor`.
* `Math.random()` is an explicit parameter `rand : ℚ` (one sample per
  attempt), with the range hypothesis `0 ≤ rand < 1` stated where needed.
* A failed Axios call is a value of `JSError`: an Axios error carries an
  optional HTTP status, an optional connection-failure code string and the
  optional `retry-after` response header; any other thrown value is
  `JSError.other` (the `instanceof AxiosError` test fails on it).
* Asynchronous effects are made observable as explicit traces: retry
  attempts / onRetry callbacks / sleeps for `withRetry`, issued PUT requests
  and the completion-call payload for the upload flow, invocation counts and
  virtual elapsed time for `pollUntil` (operations are modelled as
  instantaneous; time advances only by the loop's own sleeps).
-/

/-- An error thrown by a network call, as inspected by `isRetriableError`
and `getRetryDelay` in `utils/retry.ts`.  `axios status code retryAfter`
models an `AxiosError` with `error.response?.status`, `error.code` and
`error.response?.headers["retry-after"]`; `other` models any non-Axios
thrown value. -/
inductive JSError where
  | axios (status : Option Nat) (code : Option String) (retryAfter : Option String)
  | other
  deriving DecidableEq, Repr

/-- `isRetriableError` from `utils/retry.ts`.  A non-`AxiosError` is never
retriable.  For an `AxiosError`, JavaScript's `!status` is true when the
status is absent or `0`, modelled via `status.getD 0 = 0`. -/
def isRetriableError : JSError → Bool
  | .other => false
  | .axios status code _ =>
    let s := status.getD 0
    if s = 0 || code = some "ECONNABORTED" || code = some "ETIMEDOUT" then
      true
    else if 500 ≤ s then
      true
    else if s = 429 then
      true
    else if s = 408 then
      true
    else
      false

/-- JavaScript whitespace skipped by `parseInt` before the number. -/
def jsSpace (c : Char) : Bool :=
  c = ' ' || c = '\t' || c = '\n' || c = '\r' || c = '\x0c' || c = '\x0b'

/-- Value of the longest leading run of decimal digits; `none` when there is
no leading digit (`parseInt` yields `NaN`). -/
def parseDigits (cs : List Char) : Option Nat :=
  let ds := cs.takeWhile (·.isDigit)
  if ds.isEmpty then none
  else some (ds.foldl (fun acc c => acc * 10 + (c.toNat - 48)) 0)

/-- JavaScript `parseInt(s, 10)`: skip leading whitespace, read an optional
sign, then the longest digit prefix; `none` models `NaN`. -/
def parseIntJS (s : String) : Option Int :=
  match s.data.dropWhile jsSpace with
  | '-' :: rest => (parseDigits rest).map (fun v => -(v : Int))
  | '+' :: rest => (parseDigits rest).map (fun v => (v : Int))
  | cs => (parseDigits cs).map (fun v => (v : Int))

/-- `RetryOptions` from `utils/retry.ts` (the optional `onRetry` callback is
modelled by the event trace of `withRetry` instead of a function field). -/
structure RetryOptions where
  maxRetries : Nat
  initialDelay : ℚ
  maxDelay : ℚ
  multiplier : ℚ
  deriving Repr

/-- `DEFAULT_RETRY_OPTIONS` from `utils/retry.ts`. -/
def DEFAULT_RETRY_OPTIONS : RetryOptions :=
  { maxRetries := 3, initialDelay := 1000, maxDelay := 30000, multiplier := 2 }

/-- `getRetryDelay` from `utils/retry.ts`.  When the error carries a truthy
`retry-after` header parseable by `parseInt`, the parsed value (in seconds)
times 1000 is returned; otherwise exponential backoff capped at `maxDelay`
with ±25% jitter, floored.  `rand` stands for the `Math.random()` sample. -/
def getRetryDelay (attempt : Nat) (opts : RetryOptions) (e : JSError)
    (rand : ℚ) : ℤ :=
  let delay : ℚ := min (opts.initialDelay * opts.multiplier ^ attempt) opts.maxDelay
  let jitter : ℚ := delay * (1/4) * (rand * 2 - 1)
  let backoff : ℤ := ⌊delay + jitter⌋
  match e with
  | .axios _ _ (some ra) =>
    if ra = "" then backoff
    else
      match parseIntJS ra with
      | some n => n * 1000
      | none => backoff
  | _ => backoff

/-- Observable events of one `withRetry` run, in order: an invocation of the
wrapped operation (with its attempt index), a call of the `onRetry` callback
(with the 1-based attempt number and the error passed), a timed sleep. -/
inductive RetryEvent where
  | attempt (i : Nat)
  | onRetryCall (n : Nat) (e : JSError)
  | sleep (d : ℤ)
  deriving DecidableEq, Repr

/-- Number of operation invocations recorded in a trace. -/
def countAttempts (tr : List RetryEvent) : Nat :=
  tr.countP fun ev => match ev with
    | .attempt _ => true
    | _ => false

/-- Loop body of `withRetry` (`utils/retry.ts`): `remaining` counts the
retries still allowed, so `remaining = 0` exactly when
`attempt === opts.maxRetries`; `op i` is the outcome of the `i`-th
invocation of the wrapped operation, `rand i` the `Math.random()` sample
used for the delay after attempt `i`. -/
def withRetryAux (op : Nat → Except JSError α) (opts : RetryOptions)
    (rand : Nat → ℚ) : (remaining attempt : Nat) →
    Except JSError α × List RetryEvent
  | remaining, attempt =>
    match op attempt with
    | .ok v => (.ok v, [.attempt attempt])
    | .error e =>
      if isRetriableError e then
        match remaining with
        | 0 => (.error e, [.attempt attempt])
        | r + 1 =>
          let d := getRetryDelay attempt opts e (rand attempt)
          let rest := withRetryAux op opts rand r (attempt + 1)
          (rest.1, .attempt attempt :: .onRetryCall (attempt + 1) e ::
            .sleep d :: rest.2)
      else
        (.error e, [.attempt attempt])

/-- `withRetry` from `utils/retry.ts`: run `op` up to `maxRetries + 1`
times, returning the final outcome together with the observable trace. -/
def withRetry (op : Nat → Except JSError α) (opts : RetryOptions)
    (rand : Nat → ℚ) : Except JSError α × List RetryEvent :=
  withRetryAux op opts rand opts.maxRetries 0

/-! ## Polling loop (`utils/polling.ts`) -/

/-- Outcome of a `pollUntil` run.  `ok` returns the final value with the
number of operation invocations; `cancelled` fires when the abort signal is
set at the top of an iteration; `timeout` carries the `maxWait` reported in
the thrown message, the invocation count and the elapsed time at the check;
`noFuel` marks exhaustion of the recursion bound (the JavaScript loop is
unbounded). -/
inductive PollOutcome (α : Type) where
  | ok (value : α) (invocations : Nat)
  | cancelled (invocations : Nat)
  | timeout (maxWait : ℤ) (invocations : Nat) (elapsed : ℤ)
  | noFuel
  deriving DecidableEq, Repr

/-- Loop body of `pollUntil` (`utils/polling.ts`).  `op k` is the value
produced by the `k`-th invocation (0-based), `aborted k` the state of
`opts.signal?.aborted` at the top of iteration `k`.  Operations and
callbacks are instantaneous in this model, so `elapsed` (the virtual
`Date.now() - startTime`) grows only by the sleeps
`min pollInterval (maxWait - elapsed)`. -/
def pollUntilGo (op : Nat → α) (cond : α → Bool) (aborted : Nat → Bool)
    (pollInterval maxWait : ℤ) : (fuel k : Nat) → (elapsed : ℤ) →
    PollOutcome α
  | 0, _, _ => .noFuel
  | fuel + 1, k, elapsed =>
    if aborted k then .cancelled k
    else
      let v := op k
      if cond v then .ok v (k + 1)
      else if maxWait ≤ elapsed then .timeout maxWait (k + 1) elapsed
      else
        pollUntilGo op cond aborted pollInterval maxWait fuel (k + 1)
          (elapsed + min pollInterval (maxWait - elapsed))

/-- `pollUntil` from `utils/polling.ts`, started at invocation 0 and
elapsed time 0. -/
def pollUntil (op : Nat → α) (cond : α → Bool) (aborted : Nat → Bool)
    (pollInterval maxWait : ℤ) (fuel : Nat) : PollOutcome α :=
  pollUntilGo op cond aborted pollInterval maxWait fuel 0 0

/-! ## Upload orchestration (`services/ocr.ts`) -/

/-- One element of the `parts` array of the initiate-upload response:
`{ part_number, upload_url }`.  Part numbers are declared 1-based positive
integers by the data model and are modelled as `ℕ`. -/
structure PartDescriptor where
  part_number : Nat
  upload_url : String
  deriving DecidableEq, Repr

/-- `{ part_number, etag }` collected after a successful part PUT. -/
structure UploadedPart where
  part_number : Nat
  etag : String
  deriving DecidableEq, Repr

/-- Response of the storage endpoint to one PUT: `response.ok`,
`response.statusText`, and the `ETag` header (`none` when absent). -/
structure PutResponse where
  ok : Bool
  statusText : String
  etag : Option String
  deriving DecidableEq, Repr

/-- A PUT request issued by the orchestrator: target URL and body bytes. -/
structure PutCall where
  url : String
  body : List Nat
  deriving DecidableEq, Repr

/-- Chunk size used by `uploadParts`:
`Math.ceil(buffer.length / parts.length)` on naturals. -/
def jsCeilDiv (len n : Nat) : Nat := (len + n - 1) / n

/-- Start offset of the part numbered `pn`: `(part_number - 1) * chunkSize`. -/
def partStart (chunkSize pn : Nat) : Nat := (pn - 1) * chunkSize

/-- End offset of the part numbered `pn`:
`Math.min(start + chunkSize, buffer.length)`. -/
def partEnd (len chunkSize pn : Nat) : Nat :=
  min (partStart chunkSize pn + chunkSize) len

/-- The byte slice `buffer.slice(start, end)` for the part numbered `pn`
of a buffer split into `n` parts (`buffer.slice` clamps to the buffer). -/
def chunkOf (buffer : List Nat) (n pn : Nat) : List Nat :=
  let chunkSize := jsCeilDiv buffer.length n
  let start := partStart chunkSize pn
  ((buffer.drop start).take (partEnd buffer.length chunkSize pn - start))

/-- `etag.replace(/"/g, "")`: drop every double-quote character. -/
def stripQuotes (s : String) : String := ⟨s.data.filter (· ≠ '"')⟩

/-- Loop body of `OCRService.uploadParts` (`services/ocr.ts`): walk the
descriptors in their given order, PUT each chunk via the oracle `put`
(url ↦ body ↦ response), fail on a non-ok response or a missing `ETag`
header, and otherwise collect `{ part_number, etag }` with quotes stripped.
Returns the outcome together with the PUT requests actually issued.
`n` is the length of the full descriptor list (the chunk size uses
`parts.length` of the whole array, not of the remaining suffix). -/
def uploadPartsGo (put : String → List Nat → PutResponse) (buffer : List Nat)
    (n : Nat) : List PartDescriptor →
    Except String (List UploadedPart) × List PutCall
  | [] => (.ok [], [])
  | part :: rest =>
    let chunk := chunkOf buffer n part.part_number
    let response := put part.upload_url chunk
    let call : PutCall := ⟨part.upload_url, chunk⟩
    if response.ok then
      match response.etag with
      | none =>
        (.error ("No ETag returned for part " ++ toString part.part_number),
          [call])
      | some e =>
        let res := uploadPartsGo put buffer n rest
        (res.1.map (fun l => ⟨part.part_number, stripQuotes e⟩ :: l),
          call :: res.2)
    else
      (.error ("Failed to upload part " ++ toString part.part_number ++ ": "
        ++ response.statusText), [call])

/-- `OCRService.uploadParts` from `services/ocr.ts`. -/
def uploadParts (put : String → List Nat → PutResponse) (buffer : List Nat)
    (parts : List PartDescriptor) :
    Except String (List UploadedPart) × List PutCall :=
  uploadPartsGo put buffer parts.length parts

/-- The fields of the initiate-direct-upload response inspected by
`uploadFileBuffer`: `job_id`, `parts`, `upload_type`.  Each is optional
because the response is untrusted JSON. -/
structure InitiateResponse where
  job_id : Option String
  parts : Option (List PartDescriptor)
  upload_type : Option String
  deriving DecidableEq, Repr

/-- JavaScript truthiness of an optional string: `undefined` and `""` are
falsy. -/
def jsTruthyStr : Option String → Bool
  | none => false
  | some s => s ≠ ""

/-- Steps 1–3 of `OCRService.uploadFileBuffer` (`services/ocr.ts`) after
input validation, given the initiate-upload response: check
`!job_id || !parts` (throwing `Invalid upload response`), upload the parts,
and invoke the completion call
`completeDirectUpload(job_id, { parts: uploadedParts })` exactly when
`upload_type === "multipart" && uploadedParts.length > 0`.  Returns the
uploaded-part outcome, the PUT requests issued, and the `parts` payload
passed to the completion call (`none` when the completion call is not
invoked; the `job_id` argument, untouched by any claim, is not recorded). -/
def uploadFileBuffer (put : String → List Nat → PutResponse)
    (buffer : List Nat) (init : InitiateResponse) :
    Except String (List UploadedPart) × List PutCall ×
      Option (List UploadedPart) :=
  if jsTruthyStr init.job_id = false ∨ init.parts = none then
    (.error "Invalid upload response", [], none)
  else
    match init.parts with
    | none => (.error "Invalid upload response", [], none)
    | some parts =>
      let res := uploadParts put buffer parts
      match res.1 with
      | .error msg => (.error msg, res.2, none)
      | .ok uploaded =>
        (.ok uploaded, res.2,
          if init.upload_type = some "multipart" ∧ 0 < uploaded.length then
            some uploaded
          else none)

/-! ## Concrete instances used by witnesses and counterexamples -/

/-- An operation failing every invocation with a retriable 500 error. -/
def opAlways500 : Nat → Except JSError Nat :=
  fun _ => .error (.axios (some 500) none none)

/-- An operation failing its first invocation with a fatal 401 error. -/
def opFatal401 : Nat → Except JSError Nat :=
  fun _ => .error (.axios (some 401) none none)

/-- A constant `Math.random()` stream. -/
def randHalf : Nat → ℚ := fun _ => 1/2

/-- A retry policy with `maxRetries = 2`. -/
def optsTwoRetries : RetryOptions :=
  { maxRetries := 2, initialDelay := 1000, maxDelay := 30000, multiplier := 2 }

/-- A storage endpoint answering every PUT with ok and a quoted ETag. -/
def putAlwaysOk : String → List Nat → PutResponse :=
  fun _ _ => ⟨true, "", some "\"abc\""⟩

/-- A retry policy whose `maxDelay` equals its `initialDelay`, so the cap
binds from the first attempt. -/
def optsCap1000 : RetryOptions :=
  { maxRetries := 3, initialDelay := 1000, maxDelay := 1000, multiplier := 2 }

/-- The retriable/fatal table exactly as the specification words it
(section 4.1), for comparison with the source's `isRetriableError`:
retriable iff no status code is present, or the status is in the
server-error range, or equals 429 or 408. -/
def claimTableRetriable : Option Nat → Bool
  | none => true
  | some s => decide (500 ≤ s) || decide (s = 429) || decide (s = 408)

/-! ## Claims -/

/-- Helper for C1: when every invocation fails retriably, `withRetryAux`
performs `remaining + 1` invocations and ends with the error of the last
one. -/
lemma withRetryAux_allFail {α : Type} (op : Nat → Except JSError α)
    (opts : RetryOptions) (rand : Nat → ℚ)
    (h : ∀ i, ∃ e, op i = Except.error e ∧ isRetriableError e = true) :
    ∀ remaining attempt, ∃ e, op (attempt + remaining) = Except.error e ∧
      (withRetryAux op opts rand remaining attempt).1 = Except.error e ∧
      countAttempts (withRetryAux op opts rand remaining attempt).2 =
        remaining + 1 := by
  intro remaining
  induction remaining with
  | zero =>
    intro attempt
    obtain ⟨e, he, hr⟩ := h attempt
    refine ⟨e, by simpa using he, ?_, ?_⟩
    · rw [withRetryAux, he]
      simp [hr]
    · rw [withRetryAux, he]
      simp [hr, countAttempts]
  | succ r ih =>
    intro attempt
    obtain ⟨e, he, hr⟩ := h attempt
    obtain ⟨e', he', hres', hcount'⟩ := ih (attempt + 1)
    refine ⟨e', ?_, ?_, ?_⟩
    · rw [show attempt + (r + 1) = (attempt + 1) + r by omega]
      exact he'
    · rw [withRetryAux, he]
      simpa [hr] using hres'
    · rw [withRetryAux, he]
      simp [hr, countAttempts, List.countP_cons] at hcount' ⊢
      omega

/-- C1: with `maxRetries = N` and an operation that fails every invocation
with a retriable error, `withRetry` invokes the operation exactly `N + 1`
times and the error raised to the caller is exactly the error thrown by the
last attempt. -/
theorem retry_exhaustion_count_and_last_error {α : Type}
    (opts : RetryOptions) (rand : Nat → ℚ) (op : Nat → Except JSError α)
    (h : ∀ i, ∃ e, op i = Except.error e ∧ isRetriableError e = true) :
    ∃ e, op opts.maxRetries = Except.error e ∧
      (withRetry op opts rand).1 = Except.error e ∧
      countAttempts (withRetry op opts rand).2 = opts.maxRetries + 1 := by
  have := withRetryAux_allFail op opts rand h opts.maxRetries 0
  simpa [withRetry] using this

/-- Witness for C1 at `maxRetries = 2` and a constant 500 failure. -/
theorem retry_exhaustion_witness :
    ∃ e, opAlways500 optsTwoRetries.maxRetries = Except.error e ∧
      (withRetry opAlways500 optsTwoRetries randHalf).1 = Except.error e ∧
      countAttempts (withRetry opAlways500 optsTwoRetries randHalf).2 =
        optsTwoRetries.maxRetries + 1 :=
  retry_exhaustion_count_and_last_error optsTwoRetries randHalf opAlways500
    (fun _ => ⟨JSError.axios (some 500) none none, rfl, by decide⟩)

/-- C2: an operation whose first invocation fails with a fatal
(non-retriable) error is invoked exactly once regardless of `maxRetries`,
that same error is re-raised, and no sleep and no `onRetry` callback
happen (the trace is the single attempt). -/
theorem fatal_error_single_attempt {α : Type}
    (opts : RetryOptions) (rand : Nat → ℚ) (op : Nat → Except JSError α)
    (e : JSError) (h1 : op 0 = Except.error e)
    (h2 : isRetriableError e = false) :
    withRetry op opts rand = (Except.error e, [RetryEvent.attempt 0]) := by
  rw [withRetry, withRetryAux, h1]
  simp [h2]

/-- Witness for C2 at a simulated 401 with `maxRetries = 2`. -/
theorem fatal_error_single_attempt_witness :
    withRetry opFatal401 optsTwoRetries randHalf =
      (Except.error (JSError.axios (some 401) none none),
        [RetryEvent.attempt 0]) :=
  fatal_error_single_attempt optsTwoRetries randHalf opFatal401
    (JSError.axios (some 401) none none) rfl (by decide)

/-- Counterexample for C7: the claim's table marks status 400 fatal, but the
classifier marks an `AxiosError` with status 400 and code `ECONNABORTED`
retriable (the connection-failure code is checked before the status). -/
theorem classifier_claim_counterexample :
    isRetriableError (JSError.axios (some 400) (some "ECONNABORTED") none) =
      true ∧
    claimTableRetriable (some 400) = false := by
  decide

/-- C7 (amended): a non-Axios error is never retriable, and an Axios error
is retriable exactly when its status is absent (or the falsy 0), or its
code is `ECONNABORTED` or `ETIMEDOUT`, or its status is ≥ 500, 429 or
408. -/
theorem classifier_characterization :
    isRetriableError JSError.other = false ∧
    ∀ (status : Option Nat) (code ra : Option String),
      (isRetriableError (JSError.axios status code ra) = true ↔
        (status.getD 0 = 0 ∨ code = some "ECONNABORTED" ∨
          code = some "ETIMEDOUT" ∨ 500 ≤ status.getD 0 ∨
          status.getD 0 = 429 ∨ status.getD 0 = 408)) := by
  refine ⟨rfl, ?_⟩
  intro status code ra
  simp only [isRetriableError]
  split_ifs with h1 h2 h3 h4 <;> simp_all
  tauto

/-- Counterexample for C5: with `initialDelay = maxDelay = 1000` and the
legitimate `Math.random()` sample `3/4`, the computed backoff delay is
1125 ms, strictly above `maxDelay` — the ±25% jitter is applied after the
`maxDelay` cap and can push the effective delay above it. -/
theorem jitter_exceeds_maxDelay_counterexample :
    getRetryDelay 0 optsCap1000 (JSError.axios (some 500) none none) (3/4) =
      1125 ∧
    optsCap1000.maxDelay = 1000 ∧ ((1000 : ℤ) < 1125) ∧
    (0 : ℚ) ≤ 3/4 ∧ (3/4 : ℚ) < 1 := by
  refine ⟨?_, by norm_num [optsCap1000], by norm_num, by norm_num, by norm_num⟩
  norm_num [getRetryDelay, optsCap1000]

/-- C5 (amended): on the exponential-backoff path (no Retry-After header),
for non-negative `initialDelay`, `maxDelay` and `multiplier` and a
`Math.random()` sample in `[0, 1]`, the computed delay is bounded by
`⌊5/4 · maxDelay⌋`: the cap is applied before the jitter, so the delay may
exceed `maxDelay` by at most the 25% jitter margin. -/
theorem backoff_delay_bound (attempt : Nat) (opts : RetryOptions)
    (status : Option Nat) (code : Option String) (rand : ℚ)
    (h0 : 0 ≤ opts.initialDelay) (h1 : 0 ≤ opts.maxDelay)
    (h2 : 0 ≤ opts.multiplier) (_hr0 : 0 ≤ rand) (hr1 : rand ≤ 1) :
    getRetryDelay attempt opts (JSError.axios status code none) rand ≤
      ⌊(5 / 4 : ℚ) * opts.maxDelay⌋ := by
  simp only [getRetryDelay]
  apply Int.floor_le_floor
  have hdelay0 :
      (0:ℚ) ≤ min (opts.initialDelay * opts.multiplier ^ attempt) opts.maxDelay :=
    le_min (mul_nonneg h0 (pow_nonneg h2 _)) h1
  have hdelayM :
      min (opts.initialDelay * opts.multiplier ^ attempt) opts.maxDelay ≤
        opts.maxDelay := min_le_right _ _
  nlinarith [mul_nonneg hdelay0 (sub_nonneg.mpr hr1)]

/-- Witness for C5 (amended) at attempt 0 with `rand = 1/2`. -/
theorem backoff_delay_bound_witness :
    getRetryDelay 0 optsTwoRetries (JSError.axios (some 503) none none)
        (1/2) ≤ ⌊(5 / 4 : ℚ) * optsTwoRetries.maxDelay⌋ :=
  backoff_delay_bound 0 optsTwoRetries (some 503) none (1/2)
    (by norm_num [optsTwoRetries]) (by norm_num [optsTwoRetries])
    (by norm_num [optsTwoRetries]) (by norm_num) (by norm_num)

/-- C6: a Retry-After header parseable as the integer `n` makes the delay
exactly `n * 1000` ms, independently of attempt index and backoff options;
an unparseable header is ignored and the delay equals the computed
exponential backoff (the delay for the same error without the header). -/
theorem retry_after_header_delay (attempt : Nat) (opts : RetryOptions)
    (status : Option Nat) (code : Option String) (s : String) (rand : ℚ) :
    (∀ n : ℤ, parseIntJS s = some n →
      getRetryDelay attempt opts (JSError.axios status code (some s)) rand =
        n * 1000) ∧
    (parseIntJS s = none →
      getRetryDelay attempt opts (JSError.axios status code (some s)) rand =
        getRetryDelay attempt opts (JSError.axios status code none) rand) := by
  constructor
  · intro n hn
    by_cases hs : s = ""
    · subst hs
      simp [parseIntJS, parseDigits] at hn
    · simp only [getRetryDelay]
      rw [if_neg hs, hn]
  · intro hn
    by_cases hs : s = ""
    · subst hs
      simp [getRetryDelay]
    · simp only [getRetryDelay]
      rw [if_neg hs, hn]

/-- Witness for C6: `Retry-After: 2` yields exactly 2000 ms, and the
unparseable header `"soon"` falls back to the computed backoff. -/
theorem retry_after_header_delay_witness :
    getRetryDelay 0 optsTwoRetries (JSError.axios (some 429) none (some "2"))
        (1/2) = 2 * 1000 ∧
    getRetryDelay 0 optsTwoRetries
        (JSError.axios (some 429) none (some "soon")) (1/2) =
      getRetryDelay 0 optsTwoRetries (JSError.axios (some 429) none none)
        (1/2) :=
  ⟨(retry_after_header_delay 0 optsTwoRetries (some 429) none "2" (1/2)).1 2
      (by decide),
    (retry_after_header_delay 0 optsTwoRetries (some 429) none "soon"
        (1/2)).2 (by decide)⟩

/-- Helper for C4: one non-final iteration of the polling loop. -/
lemma pollUntilGo_step {α : Type} (op : Nat → α) (cond : α → Bool)
    (pollInterval maxWait : ℤ) (fuel k : Nat) (elapsed : ℤ)
    (hc : cond (op k) = false) (ht : ¬ maxWait ≤ elapsed) :
    pollUntilGo op cond (fun _ => false) pollInterval maxWait (fuel + 1) k
        elapsed =
      pollUntilGo op cond (fun _ => false) pollInterval maxWait fuel (k + 1)
        (elapsed + min pollInterval (maxWait - elapsed)) := by
  rw [pollUntilGo]
  simp [hc, ht]

/-- Helper for C4: the final, timed-out iteration of the polling loop. -/
lemma pollUntilGo_timeout {α : Type} (op : Nat → α) (cond : α → Bool)
    (pollInterval maxWait : ℤ) (fuel k : Nat) (elapsed : ℤ)
    (hc : cond (op k) = false) (ht : maxWait ≤ elapsed) :
    pollUntilGo op cond (fun _ => false) pollInterval maxWait (fuel + 1) k
        elapsed = .timeout maxWait (k + 1) elapsed := by
  rw [pollUntilGo]
  simp [hc, ht]

/-- Counterexample for C4: with `pollInterval = 100`, `maxWait = 500`,
zero-time operations and a never-satisfied predicate, the loop times out
after exactly 6 operation invocations, not at most 5. -/
theorem poll_timeout_invocations_counterexample :
    pollUntil (fun _ => (0 : Nat)) (fun _ => false) (fun _ => false) 100 500
        10 = .timeout 500 6 500 ∧
    ¬ (6 ≤ 5) := by
  constructor
  · decide
  · decide

/-- C4 (amended): with `pollInterval = 100`, `maxWait = 500`, a predicate
that is never satisfied and zero-time operations, `pollUntil` raises a
timeout error carrying the configured `maxWait = 500` after exactly 6
operation invocations (so at least 2), with elapsed time exactly 500 ms at
the timeout check. -/
theorem poll_never_satisfied_timeout {α : Type} (op : Nat → α)
    (cond : α → Bool) (h : ∀ v, cond v = false) (fuel : Nat)
    (hf : 6 ≤ fuel) :
    pollUntil op cond (fun _ => false) 100 500 fuel =
      .timeout 500 6 500 := by
  obtain ⟨f, rfl⟩ : ∃ f, fuel = f + 6 := ⟨fuel - 6, by omega⟩
  show pollUntilGo op cond (fun _ => false) 100 500 (f + 6) 0 0 =
    .timeout 500 6 500
  rw [show f + 6 = (f + 5) + 1 from by omega,
    pollUntilGo_step op cond 100 500 (f + 5) 0 0 (h _) (by norm_num)]
  norm_num
  rw [show f + 5 = (f + 4) + 1 from by omega,
    pollUntilGo_step op cond 100 500 (f + 4) 1 100 (h _) (by norm_num)]
  norm_num
  rw [show f + 4 = (f + 3) + 1 from by omega,
    pollUntilGo_step op cond 100 500 (f + 3) 2 200 (h _) (by norm_num)]
  norm_num
  rw [show f + 3 = (f + 2) + 1 from by omega,
    pollUntilGo_step op cond 100 500 (f + 2) 3 300 (h _) (by norm_num)]
  norm_num
  rw [show f + 2 = (f + 1) + 1 from by omega,
    pollUntilGo_step op cond 100 500 (f + 1) 4 400 (h _) (by norm_num)]
  norm_num
  rw [pollUntilGo_timeout op cond 100 500 f 5 500 (h _) (by norm_num)]

/-- Witness for C4 (amended) with a constant operation and fuel 10. -/
theorem poll_never_satisfied_timeout_witness :
    pollUntil (fun _ => (37 : Nat)) (fun _ => false) (fun _ => false) 100 500
        10 = .timeout 500 6 500 :=
  poll_never_satisfied_timeout (fun _ => (37 : Nat)) (fun _ => false)
    (fun _ => rfl) 10 (by norm_num)

/-- `stripQuotes` never leaves a double-quote character in the ETag. -/
lemma stripQuotes_no_quote (s : String) :
    ('"' : Char) ∉ (stripQuotes s).data := by
  simp [stripQuotes, List.mem_filter]

/-- Helper for C3: on success, `uploadPartsGo` yields one entry per
descriptor, carrying the descriptors' part numbers in their input order,
each with a quote-free identifier. -/
lemma uploadPartsGo_ok {put : String → List Nat → PutResponse}
    {buffer : List Nat} {n : Nat} :
    ∀ (parts : List PartDescriptor) (res : List UploadedPart)
      (tr : List PutCall),
      uploadPartsGo put buffer n parts = (.ok res, tr) →
      res.map UploadedPart.part_number = parts.map PartDescriptor.part_number ∧
      ∀ u ∈ res, ('"' : Char) ∉ u.etag.data := by
  intro parts
  induction parts with
  | nil =>
    intro res tr h
    rw [uploadPartsGo] at h
    obtain ⟨h1, -⟩ := Prod.mk.injEq .. ▸ h
    cases h
    exact ⟨rfl, by simp⟩
  | cons part rest ih =>
    intro res tr h
    rw [uploadPartsGo] at h
    by_cases hok : (put part.upload_url (chunkOf buffer n part.part_number)).ok
    · rw [if_pos hok] at h
      cases hetag : (put part.upload_url (chunkOf buffer n part.part_number)).etag with
      | none =>
        rw [hetag] at h
        simp at h
      | some e =>
        rw [hetag] at h
        cases hpx : uploadPartsGo put buffer n rest with
        | mk p1 p2 =>
          rw [hpx] at h
          cases p1 with
          | error m => simp [Except.map] at h
          | ok l =>
            simp only [Except.map, Prod.mk.injEq, Except.ok.injEq] at h
            obtain ⟨hres, htr⟩ := h
            obtain ⟨ihmap, ihq⟩ := ih l p2 hpx
            subst hres
            refine ⟨by simp [ihmap], ?_⟩
            intro u hu
            rcases List.mem_cons.mp hu with hu | hu
            · subst hu
              exact stripQuotes_no_quote e
            · exact ihq u hu
    · rw [if_neg hok] at h
      simp at h

/-- Counterexample for C3: descriptors given in the order `[2, 1]` produce
uploaded parts in that same input order, which is not ascending
part-number order. -/
theorem upload_order_counterexample :
    (uploadParts putAlwaysOk (List.range 4) [⟨2, "b"⟩, ⟨1, "a"⟩]).1 =
      Except.ok [⟨2, "abc"⟩, ⟨1, "abc"⟩] ∧
    ¬ List.Sorted (· ≤ ·)
      (List.map UploadedPart.part_number
        [(⟨2, "abc"⟩ : UploadedPart), ⟨1, "abc"⟩]) := by
  constructor
  · rfl
  · decide

/-- C3 (amended): on success, `uploadParts` returns exactly one entry per
input descriptor, carrying the descriptors' part numbers in the input
order (hence ascending part-number order whenever the descriptors are so
ordered), each with a quote-free identifier; and a 300-byte buffer with 3
parts is sliced into the byte ranges `[0,100)`, `[100,200)`, `[200,300)`. -/
theorem upload_parts_success_entries (put : String → List Nat → PutResponse)
    (buffer : List Nat) (parts : List PartDescriptor)
    (res : List UploadedPart) (tr : List PutCall)
    (h : uploadParts put buffer parts = (.ok res, tr)) :
    res.map UploadedPart.part_number = parts.map PartDescriptor.part_number ∧
    (∀ u ∈ res, ('"' : Char) ∉ u.etag.data) ∧
    ∀ buf : List Nat, buf.length = 300 → ∀ pn, 1 ≤ pn → pn ≤ 3 →
      chunkOf buf 3 pn = (buf.drop ((pn - 1) * 100)).take 100 := by
  obtain ⟨h1, h2⟩ := uploadPartsGo_ok parts res tr (by simpa [uploadParts] using h)
  refine ⟨h1, h2, ?_⟩
  intro buf hlen pn h1pn h3pn
  interval_cases pn <;>
    simp [chunkOf, jsCeilDiv, partStart, partEnd, hlen]

/-- Witness for C3 (amended) on a 6-byte buffer with two descriptors. -/
theorem upload_parts_success_entries_witness :
    List.map UploadedPart.part_number
        [(⟨1, "abc"⟩ : UploadedPart), ⟨2, "abc"⟩] =
      List.map PartDescriptor.part_number
        [(⟨1, "a"⟩ : PartDescriptor), ⟨2, "b"⟩] ∧
    (∀ u ∈ [(⟨1, "abc"⟩ : UploadedPart), ⟨2, "abc"⟩],
      ('"' : Char) ∉ u.etag.data) ∧
    ∀ buf : List Nat, buf.length = 300 → ∀ pn, 1 ≤ pn → pn ≤ 3 →
      chunkOf buf 3 pn = (buf.drop ((pn - 1) * 100)).take 100 :=
  upload_parts_success_entries putAlwaysOk (List.range 6)
    [⟨1, "a"⟩, ⟨2, "b"⟩] [⟨1, "abc"⟩, ⟨2, "abc"⟩]
    [⟨"a", [0, 1, 2]⟩, ⟨"b", [3, 4, 5]⟩] rfl

/-- Counterexample for C8: an empty part-descriptor list is not rejected —
`!parts` is false on an empty (truthy) array, so the upload proceeds,
issues no PUT, performs no completion call, and returns success. -/
theorem empty_parts_accepted_counterexample :
    uploadFileBuffer putAlwaysOk [0, 1, 2]
        ⟨some "j", some [], some "multipart"⟩ =
      (Except.ok [], [], none) ∧
    (uploadFileBuffer putAlwaysOk [0, 1, 2]
        ⟨some "j", some [], some "multipart"⟩).1.isOk = true := by
  constructor
  · rfl
  · rfl

/-- C8 (amended): for every buffer, when the part-descriptor list is empty
(and the job id is truthy), no PUT request is issued and no completion call
is made — but the upload is not rejected: it succeeds with an empty
uploaded-part list. -/
theorem empty_parts_not_rejected (put : String → List Nat → PutResponse)
    (buffer : List Nat) (jid ut : Option String)
    (h : jsTruthyStr jid = true) :
    uploadFileBuffer put buffer ⟨jid, some [], ut⟩ =
      (Except.ok [], [], none) := by
  simp [uploadFileBuffer, h, uploadParts, uploadPartsGo]

/-- Witness for C8 (amended) at a concrete truthy job id. -/
theorem empty_parts_not_rejected_witness :
    uploadFileBuffer putAlwaysOk [0, 1] ⟨some "j", some [], some "single"⟩ =
      (Except.ok [], [], none) :=
  empty_parts_not_rejected putAlwaysOk [0, 1] (some "j") (some "single")
    (by decide)

/-- Counterexample for C9: an upload with exactly one part descriptor does
invoke the completion call when the initiate response's `upload_type` is
`"multipart"` — the code keys the completion call on the flag, not on the
descriptor count. -/
theorem single_part_completion_counterexample :
    (uploadFileBuffer putAlwaysOk [1, 2, 3]
        ⟨some "j", some [⟨1, "u"⟩], some "multipart"⟩).2.2 =
      some [⟨1, "abc"⟩] := by
  rfl

/-- C9 (amended): on success, the completion collaborator call is invoked
exactly when the initiate response's `upload_type` equals `"multipart"`
and at least one part was uploaded — regardless of the number of
descriptors — and, when invoked, it is passed the full ordered list of
collected parts. -/
theorem completion_call_condition (put : String → List Nat → PutResponse)
    (buffer : List Nat) (init : InitiateResponse) (res : List UploadedPart)
    (tr : List PutCall) (c : Option (List UploadedPart))
    (h : uploadFileBuffer put buffer init = (.ok res, tr, c)) :
    c = if init.upload_type = some "multipart" ∧ 0 < res.length then some res
      else none := by
  unfold uploadFileBuffer at h
  by_cases hc : (jsTruthyStr init.job_id = false ∨ init.parts = none)
  · rw [if_pos hc] at h
    simp at h
  · rw [if_neg hc] at h
    cases hp : init.parts with
    | none =>
      rw [hp] at h
      simp at h
    | some parts =>
      rw [hp] at h
      dsimp only at h
      cases hup : (uploadParts put buffer parts).1 with
      | error m =>
        rw [hup] at h
        simp at h
      | ok up =>
        rw [hup] at h
        simp only [Prod.mk.injEq, Except.ok.injEq] at h
        obtain ⟨h1, -, h3⟩ := h
        subst h1
        exact h3.symm

/-- Witness for C9 (amended): two descriptors with `upload_type`
`"multipart"` lead to a completion call carrying both collected parts. -/
theorem completion_call_condition_witness :
    (some [(⟨1, "abc"⟩ : UploadedPart), ⟨2, "abc"⟩] :
        Option (List UploadedPart)) =
      if (some "multipart" : Option String) = some "multipart" ∧
          0 < [(⟨1, "abc"⟩ : UploadedPart), ⟨2, "abc"⟩].length then
        some [(⟨1, "abc"⟩ : UploadedPart), ⟨2, "abc"⟩]
      else none :=
  completion_call_condition putAlwaysOk [1, 2, 3]
    ⟨some "j", some [⟨1, "u"⟩, ⟨2, "v"⟩], some "multipart"⟩
    [⟨1, "abc"⟩, ⟨2, "abc"⟩] [⟨"u", [1, 2]⟩, ⟨"v", [3]⟩]
    (some [⟨1, "abc"⟩, ⟨2, "abc"⟩]) rfl

/-- Helper for C10: the clamped end offset makes the slice equal to a plain
`take chunkSize` after `drop start`. -/
lemma chunkOf_eq_take_drop (buffer : List Nat) (n pn : Nat) :
    chunkOf buffer n pn =
      (buffer.drop (partStart (jsCeilDiv buffer.length n) pn)).take
        (jsCeilDiv buffer.length n) := by
  simp only [chunkOf, partEnd]
  generalize jsCeilDiv buffer.length n = cs
  generalize partStart cs pn = st
  rw [List.take_eq_take]
  simp only [List.length_drop]
  omega

/-- Helper for C10: consecutive `take chunkSize` slices of successive drops
concatenate to an initial segment of the buffer. -/
lemma join_chunks (buffer : List Nat) (cs : Nat) : ∀ m : Nat,
    ((List.range m).map (fun i => (buffer.drop (i * cs)).take cs)).flatten =
      buffer.take (m * cs) := by
  intro m
  induction m with
  | zero => simp
  | succ k ih =>
    rw [List.range_succ, List.map_append, List.flatten_append, ih]
    simp only [List.map_cons, List.map_nil, List.flatten_cons,
      List.flatten_nil, List.append_nil]
    rw [show (k + 1) * cs = k * cs + cs from by ring, List.take_add]

/-- Helper for C10: `n` chunks of size `⌈len / n⌉` cover at least `len`. -/
lemma length_le_mul_jsCeilDiv (len n : Nat) (hn : 1 ≤ n) :
    len ≤ n * jsCeilDiv len n := by
  by_contra hlt
  push_neg at hlt
  obtain ⟨p, hp⟩ : ∃ p, p = n * jsCeilDiv len n := ⟨_, rfl⟩
  rw [← hp] at hlt
  have h1 : (jsCeilDiv len n + 1) * n ≤ len + n - 1 := by
    rw [add_mul, one_mul, mul_comm (jsCeilDiv len n) n, ← hp]
    omega
  have h2 : jsCeilDiv len n + 1 ≤ (len + n - 1) / n :=
    (Nat.le_div_iff_mul_le (by omega)).mpr h1
  unfold jsCeilDiv at h2
  omega

/-- C10: for a descriptor list with part numbers exactly `1..n` (`n ≥ 1`),
the byte ranges computed by the chunking formula are pairwise disjoint and
the chunks concatenated in part-number order reproduce the whole buffer —
no byte is uploaded twice or skipped, including when trailing parts
degenerate to empty slices. -/
theorem chunking_partitions_buffer (buffer : List Nat) (n : Nat)
    (hn : 1 ≤ n) :
    ((List.range n).map (fun i => chunkOf buffer n (i + 1))).flatten =
      buffer ∧
    ∀ j k : Nat, j < k →
      Finset.Ico (partStart (jsCeilDiv buffer.length n) (j + 1))
          (partEnd buffer.length (jsCeilDiv buffer.length n) (j + 1)) ∩
        Finset.Ico (partStart (jsCeilDiv buffer.length n) (k + 1))
          (partEnd buffer.length (jsCeilDiv buffer.length n) (k + 1)) =
      ∅ := by
  constructor
  · have heq : ∀ i : Nat, chunkOf buffer n (i + 1) =
        (buffer.drop (i * jsCeilDiv buffer.length n)).take
          (jsCeilDiv buffer.length n) := by
      intro i
      rw [chunkOf_eq_take_drop]
      have hst : partStart (jsCeilDiv buffer.length n) (i + 1) =
          i * jsCeilDiv buffer.length n := by
        simp [partStart]
      rw [hst]
    simp only [heq]
    rw [join_chunks]
    exact List.take_of_length_le (length_le_mul_jsCeilDiv _ _ hn)
  · intro j k hjk
    have hend : partEnd buffer.length (jsCeilDiv buffer.length n) (j + 1) ≤
        partStart (jsCeilDiv buffer.length n) (k + 1) := by
      unfold partEnd partStart
      simp only [Nat.add_sub_cancel]
      calc min (j * jsCeilDiv buffer.length n + jsCeilDiv buffer.length n)
            buffer.length
          ≤ j * jsCeilDiv buffer.length n + jsCeilDiv buffer.length n :=
            min_le_left _ _
        _ = (j + 1) * jsCeilDiv buffer.length n := by ring
        _ ≤ k * jsCeilDiv buffer.length n :=
            Nat.mul_le_mul_right _ (by omega)
    rw [Finset.Ico_inter_Ico]
    refine Finset.Ico_eq_empty (not_lt.mpr ?_)
    exact le_trans (le_trans (min_le_left _ _) hend) (le_max_right _ _)

/-- Witness for C10 at `n = 3` on a 7-byte buffer. -/
theorem chunking_partitions_buffer_witness :
    ((List.range 3).map (fun i => chunkOf (List.range 7) 3 (i + 1))).flatten =
      List.range 7 :=
  (chunking_partitions_buffer (List.range 7) 3 (by norm_num)).1
